import Mathlib

/-!
# Verification of the sdlc-tools Repository Intelligence Pipeline

Shallow embedding of the onboarding-analysis pipeline of the `sdlc-tools`
repository: the GitHub service wrappers (`lib/github.ts`), the deep repository
analyzer (`DeepRepositoryAnalyzer`), the onboarding service
(`RepositoryOnboardingService` in `lib/repository-onboarding.ts`) and the
`/api/github/onboarding` route handler.

External effects are modelled by explicit parameters: the outcome of each
remote call (repository metadata, file tree) is an `Except` value, per-file
content fetches are an oracle `String → Option String` (`none` models a
404 / permission failure / non-file response, exactly the cases in which
`GitHubService.getFileContent` returns `null`), and the AI service call is an
`Except Unit (List SDKMessage)` (`Except.error` models any rejection of the
`query` iteration).  `JSON.parse` is modelled by an executable JSON parser
returning `Option Json`; member access on `null` (a `TypeError` in
JavaScript, caught by the surrounding `try`) is modelled explicitly at each
use site.
-/

namespace SdlcTools

/-! ## String helpers -/

/-- Characters that are awkward to write literally. -/
def quoteChar : Char := Char.ofNat 34

def backslashChar : Char := Char.ofNat 92

def lbraceChar : Char := Char.ofNat 123

def rbraceChar : Char := Char.ofNat 125

/-- Substring test on character lists, the semantics of JavaScript
`String.prototype.includes`. -/
def charsContains (hay needle : List Char) : Bool :=
  match hay with
  | [] => needle.isEmpty
  | _ :: t => needle.isPrefixOf hay || charsContains t needle

/-- JavaScript `hay.includes(needle)`. -/
def strContains (hay needle : String) : Bool :=
  charsContains hay.toList needle.toList

/-- Tail-recursive list length, used for parser fuel so that kernel
reduction stays shallow. -/
def listLen (cs : List Char) : Nat :=
  cs.foldl (fun n _ => n + 1) 0

/-- The whitespace class of JavaScript regexes (`\s`), restricted to the
ASCII members that can appear in the analysed text. -/
def jsSpace (c : Char) : Bool :=
  c = ' ' || c = '\t' || c = '\n' || c = '\r' || c.toNat = 11 || c.toNat = 12

/-- The word-character class of JavaScript regexes (`\w`). -/
def isWordChar (c : Char) : Bool :=
  c.isAlphanum || c = '_'

/-- Lower-casing on characters (ASCII, the alphabet of the scanned
patterns), built on lists so that it reduces inside the kernel. -/
def strToLower (s : String) : String :=
  String.mk (s.toList.map Char.toLower)

/-- Model of `String.prototype.substring(0, n)` on characters. -/
def strTake (s : String) (n : Nat) : String :=
  String.mk (s.toList.take n)

/-- Model of `String.prototype.trim`. -/
def jsTrim (s : String) : String :=
  String.mk (((s.toList.dropWhile jsSpace).reverse.dropWhile jsSpace).reverse)

/-- Model of `String.prototype.startsWith`. -/
def strStartsWith (s pre : String) : Bool :=
  pre.toList.isPrefixOf s.toList

def splitLinesAux : List Char → List Char → List String
  | [], acc => [String.mk acc.reverse]
  | c :: rest, acc =>
    if c = '\n' then String.mk acc.reverse :: splitLinesAux rest []
    else splitLinesAux rest (c :: acc)

/-- Model of `content.split('\n')`. -/
def splitNewline (s : String) : List String :=
  splitLinesAux s.toList []

/-- Index of the first occurrence of `pat` in `cs`, if any. -/
def findSub (cs pat : List Char) : Option Nat :=
  match cs with
  | [] => if pat.isEmpty then some 0 else none
  | _ :: t =>
    if pat.isPrefixOf cs then some 0
    else (findSub t pat).map (· + 1)

/-! ## JSON values and a model of `JSON.parse` -/

/-- JSON values.  Numbers keep their lexeme: no analysed code path inspects a
numeric value beyond truthiness. -/
inductive Json where
  | null
  | bool (b : Bool)
  | num (raw : String)
  | str (s : String)
  | arr (items : List Json)
  | obj (members : List (String × Json))
  deriving Repr

def isJsonWs (c : Char) : Bool :=
  c = ' ' || c = '\t' || c = '\n' || c = '\r'

def skipWs (cs : List Char) : List Char :=
  cs.dropWhile isJsonWs

def hexVal (c : Char) : Option Nat :=
  if c.isDigit then some (c.toNat - 48)
  else if 'a' ≤ c && c ≤ 'f' then some (c.toNat - 87)
  else if 'A' ≤ c && c ≤ 'F' then some (c.toNat - 55)
  else none

/-- Body of a JSON string literal, after the opening quote.  Unescaped
control characters are rejected, as `JSON.parse` rejects them. -/
def parseStringBody : Nat → List Char → List Char → Option (String × List Char)
  | 0, _, _ => none
  | fuel + 1, acc, cs =>
    match cs with
    | [] => none
    | c :: rest =>
      if c = quoteChar then some (String.mk acc.reverse, rest)
      else if c = backslashChar then
        match rest with
        | [] => none
        | d :: rest2 =>
          if d = quoteChar then parseStringBody fuel (quoteChar :: acc) rest2
          else if d = backslashChar then parseStringBody fuel (backslashChar :: acc) rest2
          else if d = '/' then parseStringBody fuel ('/' :: acc) rest2
          else if d = 'n' then parseStringBody fuel ('\n' :: acc) rest2
          else if d = 't' then parseStringBody fuel ('\t' :: acc) rest2
          else if d = 'r' then parseStringBody fuel ('\r' :: acc) rest2
          else if d = 'b' then parseStringBody fuel (Char.ofNat 8 :: acc) rest2
          else if d = 'f' then parseStringBody fuel (Char.ofNat 12 :: acc) rest2
          else if d = 'u' then
            match rest2 with
            | h1 :: h2 :: h3 :: h4 :: rest3 =>
              match hexVal h1, hexVal h2, hexVal h3, hexVal h4 with
              | some a, some b, some c3, some d4 =>
                parseStringBody fuel
                  (Char.ofNat (((a * 16 + b) * 16 + c3) * 16 + d4) :: acc) rest3
              | _, _, _, _ => none
            | _ => none
          else none
      else if c.toNat < 32 then none
      else parseStringBody fuel (c :: acc) rest

/-- Lexeme of a JSON number (sign, integer part without leading zeros,
optional fraction and exponent). -/
def parseNumberLexeme (cs : List Char) : Option (String × List Char) :=
  let (sign, afterSign) :=
    match cs with
    | '-' :: t => (['-'], t)
    | _ => (([] : List Char), cs)
  let intPart := afterSign.takeWhile Char.isDigit
  if intPart.isEmpty then none
  else if intPart.length > 1 && intPart.headD '0' = '0' then none
  else
    let afterInt := afterSign.drop intPart.length
    let (fracPart, afterFrac) :=
      match afterInt with
      | '.' :: t =>
        let ds := t.takeWhile Char.isDigit
        if ds.isEmpty then (([] : List Char), afterInt)
        else ('.' :: ds, t.drop ds.length)
      | _ => (([] : List Char), afterInt)
    if afterInt ≠ afterFrac ∨ fracPart.isEmpty then
      let (expPart, afterExp) :=
        match afterFrac with
        | e :: t =>
          if e = 'e' ∨ e = 'E' then
            let (es, t2) :=
              match t with
              | s :: t2 => if s = '+' ∨ s = '-' then ([e, s], t2) else ([e], t)
              | [] => ([e], t)
            let ds := t2.takeWhile Char.isDigit
            if ds.isEmpty then (([] : List Char), afterFrac)
            else (es ++ ds, t2.drop ds.length)
          else (([] : List Char), afterFrac)
        | [] => (([] : List Char), afterFrac)
      some (String.mk (sign ++ intPart ++ fracPart ++ expPart), afterExp)
    else none

/-- Insert preserving first-insertion key order with last-value-wins, the
behaviour of duplicate keys under `JSON.parse`. -/
def upsert (kvs : List (String × Json)) (k : String) (v : Json) : List (String × Json) :=
  if kvs.any (·.1 = k) then
    kvs.map fun kv => if kv.1 = k then (k, v) else kv
  else kvs ++ [(k, v)]

/-- Parsing mode: a single value, the items of an array, or the members of
an object (with the accumulated elements). -/
inductive PMode where
  | value
  | arrItems (acc : List Json)
  | objItems (acc : List (String × Json))

/-- The recursive-descent core, structurally recursive on fuel so that it
reduces inside the kernel. -/
def parseCore : Nat → PMode → List Char → Option (Json × List Char)
  | 0, _, _ => none
  | fuel + 1, .value, cs =>
    match skipWs cs with
    | [] => none
    | c :: rest =>
      if c = 'n' then
        if ['u', 'l', 'l'].isPrefixOf rest then some (.null, rest.drop 3) else none
      else if c = 't' then
        if ['r', 'u', 'e'].isPrefixOf rest then some (.bool true, rest.drop 3) else none
      else if c = 'f' then
        if ['a', 'l', 's', 'e'].isPrefixOf rest then some (.bool false, rest.drop 4) else none
      else if c = quoteChar then
        (parseStringBody fuel [] rest).map fun p => (Json.str p.1, p.2)
      else if c = '[' then
        match skipWs rest with
        | ']' :: rest2 => some (.arr [], rest2)
        | _ => parseCore fuel (.arrItems []) rest
      else if c = lbraceChar then
        match skipWs rest with
        | d :: _ =>
          if d = rbraceChar then some (.obj [], (skipWs rest).drop 1)
          else parseCore fuel (.objItems []) rest
        | [] => none
      else if c = '-' ∨ c.isDigit then
        (parseNumberLexeme (c :: rest)).map fun p => (Json.num p.1, p.2)
      else none
  | fuel + 1, .arrItems acc, cs =>
    match parseCore fuel .value cs with
    | none => none
    | some (v, rest) =>
      match skipWs rest with
      | ',' :: rest2 => parseCore fuel (.arrItems (v :: acc)) rest2
      | ']' :: rest2 => some (.arr (v :: acc).reverse, rest2)
      | _ => none
  | fuel + 1, .objItems acc, cs =>
    match skipWs cs with
    | c :: rest =>
      if c = quoteChar then
        match parseStringBody fuel [] rest with
        | none => none
        | some (k, rest2) =>
          match skipWs rest2 with
          | ':' :: rest3 =>
            match parseCore fuel .value rest3 with
            | none => none
            | some (v, rest4) =>
              match skipWs rest4 with
              | ',' :: rest5 => parseCore fuel (.objItems ((k, v) :: acc)) rest5
              | e :: rest5 =>
                if e = rbraceChar then
                  some (.obj (((k, v) :: acc).reverse.foldl
                    (fun m kv => upsert m kv.1 kv.2) []), rest5)
                else none
              | [] => none
          | _ => none
      else none
    | [] => none

def parseValue (fuel : Nat) (cs : List Char) : Option (Json × List Char) :=
  parseCore fuel .value cs

/-- Model of `JSON.parse`: parse a single value and require that only
whitespace remains. -/
def jsonParse (s : String) : Option Json :=
  let cs := s.toList
  match parseValue (2 * listLen cs + 8) cs with
  | some (v, rest) => if (skipWs rest).isEmpty then some v else none
  | none => none

/-! ## JavaScript object semantics on `Json` values -/

def Json.objMembers : Json → List (String × Json)
  | .obj m => m
  | _ => []

/-- Property access `j[k]`; `none` is JavaScript `undefined`. -/
def jsGet (j : Json) (k : String) : Option Json :=
  (j.objMembers.find? (·.1 = k)).map (·.2)

/-- Zero test on a number lexeme (`0`, `-0`, `0.00`, `0e5`, …). -/
def numIsZero (raw : String) : Bool :=
  let mantissa := (raw.toList.filter fun c => c ≠ '-' && c ≠ '+' && c ≠ '.')
    |>.takeWhile fun c => c ≠ 'e' && c ≠ 'E'
  mantissa.all (· = '0')

/-- JavaScript truthiness of a possibly-undefined value. -/
def jsTruthy : Option Json → Bool
  | none => false
  | some .null => false
  | some (.bool b) => b
  | some (.num raw) => !numIsZero raw
  | some (.str s) => !(s = "")
  | some (.arr _) => true
  | some (.obj _) => true

/-- Model of `Object.keys`: member names for objects, index strings for strings,
empty for the other primitives. -/
def jsKeys : Json → List String
  | .obj m => m.map (·.1)
  | .str s => (List.range (listLen s.toList)).map (fun i => toString i)
  | _ => []

def jsKeysOpt : Option Json → List String
  | some j => jsKeys j
  | none => []

/-- Template-string coercion of a value. -/
def jsDisplay : Json → String
  | .null => "null"
  | .bool b => cond b "true" "false"
  | .num raw => raw
  | .str s => s
  | .arr xs => String.intercalate "," (xs.attach.map fun x => jsDisplay x.1)
  | .obj _ => "[object Object]"
decreasing_by
  simp_wf
  have := List.sizeOf_lt_of_mem x.2
  omega

/-- Model of `Object.assign(target, src)` source entries: own enumerable properties. -/
def assignEntries : Json → List (String × Json)
  | .obj m => m
  | .str s => s.toList.enum.map fun p => (toString p.1, Json.str (String.mk [p.2]))
  | _ => []

/-- Model of `Array.prototype.includes` applied to a string argument:
strict (`SameValueZero`) equality against each element. -/
def jsArrIncludesStr (xs : List Json) (s : String) : Bool :=
  xs.any fun x =>
    match x with
    | .str t => t = s
    | _ => false

/-! ## Regex scanners

Executable models of the three regular-expression scans in the source:
`/model\s+(\w+)/g` (Prisma model count), the fenced setup-command block scan
of `analyzeReadme`, and `/[-*•]\s*([^\n]+)/g` (bullet extraction in
`extractClaudeInsights`). -/

/-- Number of matches of `/model\s+(\w+)/g` (global, non-overlapping,
left-to-right). -/
def countModelMatchesAux : Nat → List Char → Nat
  | 0, _ => 0
  | _, [] => 0
  | fuel + 1, cs =>
    if "model".toList.isPrefixOf cs then
      let rest := cs.drop 5
      let ws := rest.takeWhile jsSpace
      let afterWs := rest.drop ws.length
      let word := afterWs.takeWhile isWordChar
      if ws.length > 0 && word.length > 0 then
        1 + countModelMatchesAux fuel (afterWs.drop word.length)
      else countModelMatchesAux fuel (cs.drop 1)
    else countModelMatchesAux fuel (cs.drop 1)

def countModelMatches (content : String) : Nat :=
  countModelMatchesAux (listLen content.toList + 1) content.toList

/-- Alternatives of the setup-command regex in `analyzeReadme`. -/
def setupCommandKeywords : List String :=
  ["npm install", "pip install", "yarn", "go get", "cargo build"]

/-- Leftmost occurrence of any keyword: index together with its length. -/
def earliestKeyword (cs : List Char) : Option (Nat × Nat) :=
  setupCommandKeywords.foldl
    (fun best kw =>
      match findSub cs kw.toList with
      | none => best
      | some i =>
        match best with
        | none => some (i, kw.length)
        | some (j, l) => if i < j then some (i, kw.length) else some (j, l))
    none

/-- Number of matches of the lazy regex
`/```[\s\S]*?(npm install|pip install|yarn|go get|cargo build)[\s\S]*?```/gi`:
each match runs from a fence to the earliest fence after the earliest
keyword after it. -/
def countSetupBlocksAux (fence : List Char) : Nat → List Char → Nat
  | 0, _ => 0
  | fuel + 1, cs =>
    match findSub cs fence with
    | none => 0
    | some i =>
      let afterOpen := cs.drop (i + 3)
      match earliestKeyword afterOpen with
      | none => 0
      | some (kIdx, kLen) =>
        let afterK := afterOpen.drop (kIdx + kLen)
        match findSub afterK fence with
        | none => 0
        | some j => 1 + countSetupBlocksAux fence fuel (afterK.drop (j + 3))

def countSetupCommandBlocks (content : String) : Nat :=
  let lower := (strToLower content)
  countSetupBlocksAux "```".toList (listLen lower.toList + 1) lower.toList

/-- Starting offset chosen by the backtracking `\s*` of `/[-*•]\s*([^\n]+)/`:
largest `k` not exceeding the whitespace run such that the character at `k`
exists and is not a newline. -/
def pickBulletStart (t : List Char) : Nat → Option Nat
  | 0 =>
    match t.get? 0 with
    | some ch => if ch = '\n' then none else some 0
    | none => none
  | k + 1 =>
    match t.get? (k + 1) with
    | some ch => if ch = '\n' then pickBulletStart t k else some (k + 1)
    | none => pickBulletStart t k

def bulletChars : List Char := ['-', '*', '•']

/-- Items pushed for the matches of `/[-*•]\s*([^\n]+)/g` after
`.replace(/[-*•]\s*/, '').trim()`: the captured line remainder, trimmed. -/
def bulletScan : Nat → List Char → List String
  | 0, _ => []
  | _ + 1, [] => []
  | fuel + 1, c :: rest =>
    if bulletChars.contains c then
      let wsLen := (rest.takeWhile jsSpace).length
      match pickBulletStart rest wsLen with
      | some k =>
        let afterWs := rest.drop k
        let captured := afterWs.takeWhile (fun ch => ch ≠ '\n')
        jsTrim (String.mk captured) :: bulletScan fuel (afterWs.drop captured.length)
      | none => bulletScan fuel rest
    else bulletScan fuel rest

def bulletItems (s : String) : List String :=
  bulletScan (listLen s.toList + 1) s.toList

/-! ## GitHub service models (`lib/github.ts`)

Each wrapper catches any underlying error and throws a fresh generic
`Error`, discarding the HTTP status that distinguished not-found from
unauthorized from rate-limited.  The underlying call outcome is a
parameter. -/

/-- Failure cause of an underlying GitHub API call. -/
inductive ApiCause where
  | notFound
  | unauthorized
  | rateLimited
  | unknown
  deriving DecidableEq, Repr

/-- The fields of the repository metadata consumed by the modelled code. -/
structure RepoMeta where
  language : Option String
  deriving DecidableEq, Repr

/-- An entry of the git tree returned by `getRepositoryTree`. -/
structure TreeItem where
  path : String
  itemType : String
  size : Nat
  deriving DecidableEq, Repr

/-- Model of `GitHubService.getRepoDetails`: any failure is re-thrown as the fixed
message `Failed to fetch repository details`. -/
def getRepoDetailsModel (result : Except ApiCause RepoMeta) : Except String RepoMeta :=
  match result with
  | .ok m => .ok m
  | .error _ => .error "Failed to fetch repository details"

/-- Model of `GitHubService.getComprehensiveRepoAnalytics`: wraps `getRepoDetails`
(the statistics calls swallow their own failures) and re-throws any failure
as `Failed to fetch comprehensive analytics`. -/
def getComprehensiveRepoAnalyticsModel (result : Except ApiCause RepoMeta) :
    Except String RepoMeta :=
  match getRepoDetailsModel result with
  | .ok m => .ok m
  | .error _ => .error "Failed to fetch comprehensive analytics"

/-- Model of `GitHubService.getRepositoryTree`: any failure is re-thrown as
`Failed to fetch repository tree`. -/
def getRepositoryTreeModel (result : Except ApiCause (List TreeItem)) :
    Except String (List TreeItem) :=
  match result with
  | .ok t => .ok t
  | .error _ => .error "Failed to fetch repository tree"

/-! ## `DeepRepositoryAnalyzer` (file classifier and structure inferencer) -/

/-- Model of `FileAnalysis` of `deep-analyzer.ts`; `content` holds only the first
1000 characters of the fetched file. -/
structure FileAnalysis where
  filename : String
  content : String
  ftype : String
  language : Option String
  insights : List String
  deriving DecidableEq, Repr

/-- Model of `DeepRepositoryAnalyzer.analyzeReadme`. -/
def analyzeReadme (content : String) : List String :=
  let ls := (strToLower content)
  (if strContains ls "installation" || strContains ls "install" then
    ["Contains installation instructions"] else []) ++
  (if strContains ls "getting started" || strContains ls "quick start" then
    ["Includes getting started guide"] else []) ++
  (if strContains ls "api" || strContains ls "documentation" then
    ["Has API or documentation references"] else []) ++
  (if strContains ls "contributing" || strContains ls "contribute" then
    ["Includes contribution guidelines"] else []) ++
  (if strContains ls "license" then ["Contains license information"] else []) ++
  (if strContains ls "demo" || strContains ls "example" then
    ["Provides examples or demos"] else []) ++
  (let n := countSetupCommandBlocks content
   if n > 0 then ["Found " ++ toString n ++ " setup command blocks"] else [])

/-- Model of `DeepRepositoryAnalyzer.analyzePackageJson`.  A `null` parse result makes
the first member access throw, landing in the `catch` branch. -/
def analyzePackageJson (content : String) : List String :=
  match jsonParse content with
  | none => ["Invalid package.json format"]
  | some .null => ["Invalid package.json format"]
  | some pkg =>
    (if jsTruthy (jsGet pkg "scripts") then
      let scr := (jsGet pkg "scripts").getD .null
      ["Available scripts: " ++ String.intercalate ", " (jsKeys scr)] ++
      (if jsTruthy (jsGet scr "dev") || jsTruthy (jsGet scr "start") then
        ["Has development server scripts"] else []) ++
      (if jsTruthy (jsGet scr "build") then ["Has build script"] else []) ++
      (if jsTruthy (jsGet scr "test") then ["Has test script"] else [])
    else []) ++
    (if jsTruthy (jsGet pkg "dependencies") then
      let d := (jsGet pkg "dependencies").getD .null
      [toString (jsKeys d).length ++ " production dependencies"] ++
      (if jsTruthy (jsGet d "react") then ["React application"] else []) ++
      (if jsTruthy (jsGet d "vue") then ["Vue.js application"] else []) ++
      (if jsTruthy (jsGet d "angular") then ["Angular application"] else []) ++
      (if jsTruthy (jsGet d "next") then ["Next.js application"] else []) ++
      (if jsTruthy (jsGet d "express") then ["Express.js server"] else []) ++
      (if jsTruthy (jsGet d "fastify") then ["Fastify server"] else [])
    else []) ++
    (if jsTruthy (jsGet pkg "devDependencies") then
      let d := (jsGet pkg "devDependencies").getD .null
      [toString (jsKeys d).length ++ " development dependencies"] ++
      (if jsTruthy (jsGet d "typescript") then ["TypeScript project"] else []) ++
      (if jsTruthy (jsGet d "jest") then ["Uses Jest for testing"] else []) ++
      (if jsTruthy (jsGet d "cypress") then ["Uses Cypress for E2E testing"] else []) ++
      (if jsTruthy (jsGet d "webpack") then ["Uses Webpack for bundling"] else []) ++
      (if jsTruthy (jsGet d "vite") then ["Uses Vite for bundling"] else [])
    else []) ++
    (if jsTruthy (jsGet pkg "engines") then
      let e := (jsGet pkg "engines").getD .null
      ["Node.js version requirement: " ++
        (match jsGet e "node" with
         | some v => if jsTruthy (some v) then jsDisplay v else "not specified"
         | none => "not specified")]
    else [])

/-- Model of `DeepRepositoryAnalyzer.analyzePythonRequirements`. -/
def analyzePythonRequirements (content : String) : List String :=
  let ls := (splitNewline content).filter fun l => jsTrim l ≠ "" && !(strStartsWith l "#")
  [toString ls.length ++ " Python dependencies"] ++
  (let fw := ls.filter fun l =>
     strContains l "django" || strContains l "flask" || strContains l "fastapi" ||
     strContains l "tornado" || strContains l "pyramid"
   if fw.length > 0 then
     ["Python web frameworks: " ++ String.intercalate ", " fw]
   else [])

/-- Model of `DeepRepositoryAnalyzer.analyzeDockerfile`. -/
def analyzeDockerfile (content : String) : List String :=
  let ls := (strToLower content)
  (if strContains ls "from node" then ["Node.js Docker container"] else []) ++
  (if strContains ls "from python" then ["Python Docker container"] else []) ++
  (if strContains ls "from nginx" then ["Nginx web server"] else []) ++
  (if strContains ls "expose" then ["Exposes network ports"] else []) ++
  (if strContains ls "volume" then ["Uses Docker volumes"] else []) ++
  (if strContains ls "multi-stage" then ["Multi-stage Docker build"] else [])

/-- Model of `DeepRepositoryAnalyzer.analyzeTestConfig`. -/
def analyzeTestConfig (content : String) : List String :=
  let ls := (strToLower content)
  (if strContains ls "jest" then ["Jest testing framework"] else []) ++
  (if strContains ls "mocha" then ["Mocha testing framework"] else []) ++
  (if strContains ls "cypress" then ["Cypress E2E testing"] else []) ++
  (if strContains ls "playwright" then ["Playwright testing"] else []) ++
  (if strContains ls "coverage" then ["Code coverage configured"] else [])

/-- Model of `DeepRepositoryAnalyzer.analyzeConfigFile` (content is unused there). -/
def analyzeConfigFile (filename : String) : List String :=
  (if strContains filename "typescript" || strContains filename "tsconfig" then
    ["TypeScript configuration"] else []) ++
  (if strContains filename "webpack" then ["Webpack bundler configuration"] else []) ++
  (if strContains filename "vite" then ["Vite build tool configuration"] else [])

/-- Model of `DeepRepositoryAnalyzer.analyzeFile`: classify by filename, extract
insights from the full content, but store only the first 1000 characters. -/
def analyzeFile (filename content : String) : FileAnalysis :=
  let stored := strTake content 1000
  if strContains (strToLower filename) "readme" then
    ⟨filename, stored, "documentation", none, analyzeReadme content⟩
  else if filename = "package.json" then
    ⟨filename, stored, "config", some "json", analyzePackageJson content⟩
  else if filename = "requirements.txt" then
    ⟨filename, stored, "config", none, analyzePythonRequirements content⟩
  else if strContains filename "docker" then
    ⟨filename, stored, "build", none, analyzeDockerfile content⟩
  else if strContains filename "test" || strContains filename "spec" then
    ⟨filename, stored, "test", none, analyzeTestConfig content⟩
  else if strContains filename "config" || strContains filename ".json" then
    ⟨filename, stored, "config", none, analyzeConfigFile filename⟩
  else
    ⟨filename, stored, "code", none, []⟩

/-- Model of `ProjectStructure` of `deep-analyzer.ts`. -/
structure ProjectStructureM where
  framework : String
  language : String
  buildSystem : String
  testFramework : Option String
  dependencies : List (String × Json)
  scripts : List (String × Json)
  architecture : String

def emptyProjectStructure : ProjectStructureM :=
  ⟨"Unknown", "Unknown", "Unknown", none, [], [], "Unknown"⟩

/-- The `package.json` stage of `analyzeProjectStructure`, including the
partial effects left behind when `pkg.scripts.build.includes` throws.  A
string `build` uses `String.prototype.includes`; an array `build` uses
`Array.prototype.includes` (element equality, no throw); any other truthy
value has no `includes` method, so the access throws and the `catch` skips
the `devDependencies` section while keeping all earlier assignments. -/
def packageJsonStage (s0 : ProjectStructureM) (stored : String) : ProjectStructureM :=
  match jsonParse stored with
  | none => s0
  | some .null => { s0 with language := "JavaScript/TypeScript" }
  | some pkg =>
    let sA := { s0 with language := "JavaScript/TypeScript" }
    let sB :=
      if jsTruthy (jsGet pkg "dependencies") then
        let d := (jsGet pkg "dependencies").getD .null
        let fw :=
          if jsTruthy (jsGet d "react") then "React"
          else if jsTruthy (jsGet d "vue") then "Vue.js"
          else if jsTruthy (jsGet d "angular") then "Angular"
          else if jsTruthy (jsGet d "next") then "Next.js"
          else if jsTruthy (jsGet d "express") then "Express.js"
          else if jsTruthy (jsGet d "fastify") then "Fastify"
          else sA.framework
        { sA with dependencies := assignEntries d, framework := fw }
      else sA
    let scriptsStep : ProjectStructureM × Bool :=
      if jsTruthy (jsGet pkg "scripts") then
        let sc := (jsGet pkg "scripts").getD .null
        let sB' := { sB with scripts := assignEntries sc }
        match jsGet sc "build" with
        | some bv =>
          if jsTruthy (some bv) then
            match bv with
            | .str bs =>
              ({ sB' with buildSystem :=
                  if strContains bs "webpack" then "Webpack"
                  else if strContains bs "vite" then "Vite"
                  else "Custom" }, true)
            | .arr xs =>
              ({ sB' with buildSystem :=
                  if jsArrIncludesStr xs "webpack" then "Webpack"
                  else if jsArrIncludesStr xs "vite" then "Vite"
                  else "Custom" }, true)
            | _ => (sB', false)
          else (sB', true)
        | none => (sB', true)
      else (sB, true)
    let sC := scriptsStep.1
    if scriptsStep.2 then
      if jsTruthy (jsGet pkg "devDependencies") then
        let dd := (jsGet pkg "devDependencies").getD .null
        let tf :=
          if jsTruthy (jsGet dd "jest") then some "Jest"
          else if jsTruthy (jsGet dd "mocha") then some "Mocha"
          else if jsTruthy (jsGet dd "cypress") then some "Cypress"
          else sC.testFramework
        { sC with testFramework := tf }
      else sC
    else sC

/-- The `requirements.txt` stage of `analyzeProjectStructure`. -/
def requirementsStage (s : ProjectStructureM) (stored : String) : ProjectStructureM :=
  let ls := splitNewline stored
  let fw :=
    if ls.any (strContains · "django") then "Django"
    else if ls.any (strContains · "flask") then "Flask"
    else if ls.any (strContains · "fastapi") then "FastAPI"
    else s.framework
  { s with language := "Python", framework := fw }

/-- Model of `DeepRepositoryAnalyzer.analyzeProjectStructure`: parse the (already
truncated) stored contents, then derive the architecture label. -/
def analyzeProjectStructure (keyFiles : List FileAnalysis) : ProjectStructureM :=
  let s1 :=
    match keyFiles.find? (·.filename = "package.json") with
    | some pj => packageJsonStage emptyProjectStructure pj.content
    | none => emptyProjectStructure
  let s2 :=
    match keyFiles.find? (·.filename = "requirements.txt") with
    | some req => requirementsStage s1 req.content
    | none => s1
  let arch :=
    if keyFiles.any (fun f => strContains f.filename "docker") then "Containerized"
    else if strContains s2.framework "Next.js" || strContains s2.framework "React" then
      "Single Page Application"
    else if strContains s2.framework "Express" || strContains s2.framework "FastAPI" then
      "API Server"
    else "Unknown"
  { s2 with architecture := arch }

/-- Presence of a container descriptor among the classified key files, the
test used by `analyzeProjectStructure`. -/
def hasDockerFile (keyFiles : List FileAnalysis) : Bool :=
  keyFiles.any fun f => strContains f.filename "docker"

/-- The UI-framework test of the architecture rule. -/
def uiFrameworkDetected (s : ProjectStructureM) : Bool :=
  strContains s.framework "Next.js" || strContains s.framework "React"

/-- The server-framework test of the architecture rule. -/
def serverFrameworkDetected (s : ProjectStructureM) : Bool :=
  strContains s.framework "Express" || strContains s.framework "FastAPI"

/-! ## `RepositoryOnboardingService` (`lib/repository-onboarding.ts`) -/

/-- Model of `RepositoryOnboardingService.getFileType`. -/
def getFileType (filename : String) : String :=
  let name := (strToLower filename)
  if strContains name "readme" then "documentation"
  else if strContains name "package.json" || strContains name "requirements" ||
      strContains name "gemfile" then "dependencies"
  else if strContains name "docker" then "containerization"
  else if strContains name "config" || strContains name "tsconfig" ||
      strContains name "webpack" then "configuration"
  else if strContains name "test" || strContains name "spec" then "testing"
  else if strContains name "contributing" || strContains name "license" ||
      strContains name "changelog" then "project_info"
  else if strContains name "schema.prisma" then "database_schema"
  else "code"

/-- Model of `RepositoryOnboardingService.analyzeFileContent`.  The `package.json`
branch parses the content it is given; a parse failure (or the `TypeError`
thrown by `pkg.scripts` when the parse yields `null`) lands in the `catch`
branch with the single `Contains package configuration` insight. -/
def analyzeFileContent (filename content : String) : List String :=
  let lowerContent := (strToLower content)
  (if strContains (strToLower filename) "readme" then
    (if strContains lowerContent "installation" then
      ["Contains installation instructions"] else []) ++
    (if strContains lowerContent "getting started" then
      ["Has getting started guide"] else []) ++
    (if strContains lowerContent "api" then ["Includes API documentation"] else []) ++
    (if strContains lowerContent "example" then ["Provides examples"] else []) ++
    (if strContains lowerContent "demo" then ["Has demo information"] else [])
  else []) ++
  (if filename = "package.json" then
    match jsonParse content with
    | none => ["Contains package configuration"]
    | some .null => ["Contains package configuration"]
    | some pkg =>
      (if jsTruthy (jsGet pkg "scripts") then
        ["Available scripts: " ++
          String.intercalate ", " (jsKeysOpt (jsGet pkg "scripts"))]
      else []) ++
      (if jsTruthy (jsGet pkg "dependencies") then
        [toString (jsKeysOpt (jsGet pkg "dependencies")).length ++ " dependencies"]
      else [])
  else []) ++
  (if strContains filename "schema.prisma" then
    ["Prisma database schema"] ++
    (let n := countModelMatches content
     if n > 0 then ["Database models: " ++ toString n] else [])
  else [])

/-- The key-file allow-list of `RepositoryOnboardingService.getKeyFiles`. -/
def keyFileNames : List String :=
  ["README.md", "README.rst", "README.txt",
   "package.json", "requirements.txt", "Gemfile", "go.mod", "Cargo.toml",
   "dockerfile", "Dockerfile", "docker-compose.yml",
   "tsconfig.json", "webpack.config.js", "vite.config.js",
   ".env.example", ".env.template",
   "CONTRIBUTING.md", "LICENSE", "CHANGELOG.md",
   "prisma/schema.prisma", "schema.prisma"]

/-- Case-insensitive allow-list match on a tree path. -/
def isKeyFilePath (path : String) : Bool :=
  keyFileNames.any fun name => strContains (strToLower path) (strToLower name)

/-- The key-file record assembled by `getKeyFiles`: the stored content is
truncated to 2000 characters, the insights are computed from the full
content. -/
structure GatheredKeyFile where
  path : String
  content : String
  ftype : String
  insights : List String
  deriving DecidableEq, Repr

/-- Model of `RepositoryOnboardingService.getKeyFiles`.  `fileContent` is the
per-path outcome of `GitHubService.getFileContent`; `none` (its `null`)
yields an empty string via `fileData?.content || ''`, so a failed fetch
still produces an entry. -/
def getKeyFiles (tree : List TreeItem) (fileContent : String → Option String) :
    List GatheredKeyFile :=
  (tree.filter fun item => isKeyFilePath item.path).map fun item =>
    let full := (fileContent item.path).getD ""
    { path := item.path
      content := strTake full 2000
      ftype := getFileType item.path
      insights := analyzeFileContent item.path full }

/-- The slice of `RepositoryAnalysisData` consumed by the modelled methods
(the repository language and the gathered key files; the narrative-only
fields are not modelled). -/
structure RepoData where
  repoLanguage : Option String
  keyFiles : List GatheredKeyFile
  deriving DecidableEq, Repr

/-- Model of `RepositoryOnboardingService.gatherRepositoryData`: the comprehensive
analytics call (wrapping the mandatory metadata call) and the tree call are
the two awaited calls that can throw; `getKeyFiles` cannot. -/
def gatherRepositoryData (metadata : Except ApiCause RepoMeta)
    (tree : Except ApiCause (List TreeItem))
    (fileContent : String → Option String) : Except String RepoData :=
  match getComprehensiveRepoAnalyticsModel metadata with
  | .error e => .error e
  | .ok meta =>
    match getRepositoryTreeModel tree with
    | .error e => .error e
    | .ok t => .ok { repoLanguage := meta.language, keyFiles := getKeyFiles t fileContent }

/-! ### AI enrichment (`performClaudeCodeAnalysis`) -/

/-- A content item of an SDK message. -/
structure ContentItem where
  ctype : String
  text : Option String
  deriving DecidableEq, Repr

/-- An SDK message collected from the `query` iteration. -/
structure SDKMessage where
  mtype : String
  content : List ContentItem
  deriving DecidableEq, Repr

/-- The structured buckets extracted from the AI response. -/
structure ClaudeAnalysis where
  codeAnalysis : String
  dataModel : String
  architecture : String
  features : List String
  setupInstructions : String
  keyInsights : List String
  deriving DecidableEq, Repr

/-- Accumulator state of the `extractClaudeInsights` fold. -/
structure InsightAcc where
  codeAnalysis : String
  dataModel : String
  architecture : String
  features : List String
  setupInstructions : String
  keyInsights : List String

/-- One text segment processed by `extractClaudeInsights`. -/
def insightStep (acc : InsightAcc) (t : String) : InsightAcc :=
  let lower := (strToLower t)
  let acc :=
    if strContains lower "architecture" || strContains lower "pattern" then
      { acc with architecture := acc.architecture ++ t ++ "\n" }
    else acc
  let acc :=
    if strContains lower "data model" || strContains lower "database" ||
        strContains lower "schema" then
      { acc with dataModel := acc.dataModel ++ t ++ "\n" }
    else acc
  let acc :=
    if strContains lower "feature" || strContains lower "capability" then
      { acc with features := acc.features ++ bulletItems t }
    else acc
  let acc :=
    if strContains lower "setup" || strContains lower "install" then
      { acc with setupInstructions := acc.setupInstructions ++ t ++ "\n" }
    else acc
  let acc :=
    if strContains lower "insight" || strContains lower "important" then
      { acc with keyInsights := acc.keyInsights ++ bulletItems t }
    else acc
  { acc with codeAnalysis := acc.codeAnalysis ++ t ++ "\n" }

/-- Model of `RepositoryOnboardingService.extractClaudeInsights`. -/
def extractClaudeInsights (messages : List SDKMessage) : ClaudeAnalysis :=
  let texts := messages.foldl
    (fun acc msg =>
      if msg.mtype = "assistant" then
        acc ++ msg.content.filterMap fun item =>
          if item.ctype = "text" then
            match item.text with
            | some t => if t ≠ "" then some t else none
            | none => none
          else none
      else acc) []
  let r := texts.foldl insightStep ⟨"", "", "", [], "", []⟩
  { codeAnalysis := if r.codeAnalysis = "" then "Code analysis completed" else r.codeAnalysis
    dataModel := if r.dataModel = "" then "No specific data model detected" else r.dataModel
    architecture :=
      if r.architecture = "" then "Architecture analysis completed" else r.architecture
    features := if r.features.isEmpty then ["Application features detected"] else r.features
    setupInstructions :=
      if r.setupInstructions = "" then "Standard development setup required"
      else r.setupInstructions
    keyInsights :=
      if r.keyInsights.isEmpty then ["Comprehensive analysis completed"] else r.keyInsights }

/-- The fixed fallback returned when the `query` iteration throws. -/
def claudeFallbackAnalysis : ClaudeAnalysis :=
  { codeAnalysis := "Claude analysis unavailable - using GitHub API data only"
    dataModel := "Data model analysis unavailable"
    architecture := "Architecture analysis unavailable"
    features := []
    setupInstructions := "Standard setup required"
    keyInsights := ["Analysis limited - Claude SDK unavailable"] }

/-- Model of `RepositoryOnboardingService.performClaudeCodeAnalysis`.  The AI call
runs with no timeout (the `AbortController` is created but never fired); the
only failure handling is the `catch` returning the fixed fallback. -/
def performClaudeCodeAnalysis (ai : Except Unit (List SDKMessage)) : ClaudeAnalysis :=
  match ai with
  | .ok messages => extractClaudeInsights messages
  | .error _ => claudeFallbackAnalysis

/-! ### Recommendations -/

/-- Model of `RepositoryOnboardingService.detectFramework`: parses the *stored*
(truncated) `package.json` content of the gathered key files. -/
def detectFramework (keyFiles : List GatheredKeyFile) : Option String :=
  let fromPkg :=
    match keyFiles.find? (·.path = "package.json") with
    | some pj =>
      if pj.content ≠ "" then
        match jsonParse pj.content with
        | some (.obj m) =>
          let pkg := Json.obj m
          if jsTruthy (jsGet pkg "dependencies") then
            let d := (jsGet pkg "dependencies").getD .null
            if jsTruthy (jsGet d "react") then some "React"
            else if jsTruthy (jsGet d "vue") then some "Vue.js"
            else if jsTruthy (jsGet d "angular") then some "Angular"
            else if jsTruthy (jsGet d "next") then some "Next.js"
            else if jsTruthy (jsGet d "express") then some "Express.js"
            else if jsTruthy (jsGet d "fastify") then some "Fastify"
            else none
          else none
        | some _ => none
        | none => none
      else none
    | none => none
  match fromPkg with
  | some fw => some fw
  | none =>
    match keyFiles.find? (fun f => strContains f.path "requirements") with
    | some req =>
      if req.content ≠ "" then
        let c := (strToLower req.content)
        if strContains c "django" then some "Django"
        else if strContains c "flask" then some "Flask"
        else if strContains c "fastapi" then some "FastAPI"
        else none
      else none
    | none => none

/-- The AI-derived block of `generateEnhancedRecommendations` (header, up to
six bullet insights, blank separator). -/
def aiRecBlock (ca : ClaudeAnalysis) : List String :=
  if ca.keyInsights ≠ [] then
    "**🤖 AI-Powered Recommendations:**" ::
      (ca.keyInsights.take 6).map (fun i => "• " ++ i) ++ [""]
  else []

/-- The setup block: header, clone recommendation, and the JS/TS-specific
entries when the repository language matches exactly. -/
def setupRecBlock (repoData : RepoData) : List String :=
  ["**🚀 Setup & Development:**",
   "• Clone the repository and review all README files"] ++
  (match repoData.repoLanguage with
   | some lang =>
     if lang = "JavaScript" || lang = "TypeScript" then
       ["• Run `npm install` to install all dependencies",
        "• Check package.json for available development scripts"] ++
       (match detectFramework repoData.keyFiles with
        | some fw => ["• Familiarize yourself with " ++ fw ++ " framework patterns"]
        | none => [])
     else []
   | none => [])

/-- The database block, emitted when a Prisma schema was gathered or the AI
data-model narrative mentions `prisma`. -/
def dbRecBlock (repoData : RepoData) (ca : ClaudeAnalysis) : List String :=
  if repoData.keyFiles.any (fun f => strContains f.path "schema.prisma") ||
      strContains ca.dataModel "prisma" then
    ["", "**🗄️ Database & Data Model:**",
     "• Review the Prisma schema for data model understanding",
     "• Run `npx prisma generate` to generate the client",
     "• Study entity relationships and database constraints",
     "• Use `npx prisma studio` to explore the database visually"]
  else []

/-- The feature-exploration block (up to four features). -/
def featRecBlock (ca : ClaudeAnalysis) : List String :=
  if ca.features ≠ [] then
    ["", "**🎯 Feature Exploration:**"] ++
      (ca.features.take 4).map (fun f => "• Explore the " ++ f ++ " implementation")
  else []

/-- The unconditional code-quality block. -/
def qualityRecBlock : List String :=
  ["", "**📋 Code Quality & Best Practices:**",
   "• Review the codebase structure and naming conventions",
   "• Check for existing tests and testing patterns",
   "• Look for linting and formatting configurations"]

/-- Model of `RepositoryOnboardingService.generateEnhancedRecommendations`: the five
push paragraphs of the source, in order. -/
def generateEnhancedRecommendations (repoData : RepoData) (ca : ClaudeAnalysis) :
    List String :=
  aiRecBlock ca ++ setupRecBlock repoData ++ dbRecBlock repoData ca ++
    featRecBlock ca ++ qualityRecBlock

/-- Model of `RepositoryOnboardingService.generateBasicRecommendations`. -/
def generateBasicRecommendations (repoData : RepoData) : List String :=
  ["Clone the repository and review the README.md file"] ++
  (match repoData.repoLanguage with
   | some lang =>
     if lang = "JavaScript" || lang = "TypeScript" then
       ["Run `npm install` to install dependencies",
        "Check package.json for available scripts"]
     else []
   | none => [])

/-! ### The onboarding run and its stream -/

/-- The slice of `OnboardingResult` consumed by the route handler and the
claims (the two markdown narratives are not modelled; no claim concerns
their text). -/
structure OnboardingResultM where
  success : Bool
  recommendations : List String
  error : Option String
  analysisType : Option String
  metaKeyInsights : Option (List String)
  deriving DecidableEq, Repr

/-- Model of `RepositoryOnboardingService.generateComprehensiveOnboarding`.  When the
gather throws, the `catch` calls `generateBasicOnboarding`, which re-issues
the same (deterministic, in this model) gather; it fails again, so the basic
path returns `success: false` carrying the original error message.  When the
gather succeeds, the AI step cannot fail the run (`performClaudeCodeAnalysis`
absorbs every failure) and the result is marked
`analysisType: claude_enhanced_analysis` unconditionally. -/
def generateComprehensiveOnboarding (metadata : Except ApiCause RepoMeta)
    (tree : Except ApiCause (List TreeItem))
    (fileContent : String → Option String)
    (ai : Except Unit (List SDKMessage)) : OnboardingResultM :=
  match gatherRepositoryData metadata tree fileContent with
  | .ok repoData =>
    let ca := performClaudeCodeAnalysis ai
    { success := true
      recommendations := generateEnhancedRecommendations repoData ca
      error := none
      analysisType := some "claude_enhanced_analysis"
      metaKeyInsights := some ca.keyInsights }
  | .error e =>
    { success := false
      recommendations := ["Please try again later"]
      error := some e
      analysisType := none
      metaKeyInsights := none }

/-- Events the `/api/github/onboarding` route writes to its SSE stream. -/
inductive StreamEvent where
  | progress (message : String)
  | stepMessage (content : String) (percent : Nat)
  | complete (recommendations : List String)
  | errorEvent (message : String)
  deriving DecidableEq, Repr

def isProgressLike : StreamEvent → Bool
  | .progress _ => true
  | .stepMessage _ _ => true
  | _ => false

def isTerminal : StreamEvent → Bool
  | .complete _ => true
  | .errorEvent _ => true
  | _ => false

/-- The fixed progress checkpoints replayed on the success path. -/
def progressSteps : List (String × Nat) :=
  [("Analyzing repository structure...", 25),
   ("Processing key files...", 50),
   ("Generating technical analysis...", 75),
   ("Creating recommendations...", 90)]

/-- The event sequence of the `ReadableStream` body of the route, assuming the
client stays connected (`isStreamClosed` never becomes true). -/
def onboardingRouteEvents (result : OnboardingResultM) : List StreamEvent :=
  [.progress "Starting repository analysis...",
   .progress "Gathering repository data..."] ++
  (if result.success then
    (progressSteps.map fun s => .stepMessage s.1 s.2) ++
      [.complete result.recommendations]
  else
    [.errorEvent
      (match result.error with
       | some e => if e = "" then "Analysis failed" else e
       | none => "Analysis failed")])

/-- The HTTP-level response of the route. -/
inductive PostResponse where
  | httpError (status : Nat) (message : String)
  | stream (events : List StreamEvent)
  deriving DecidableEq, Repr

/-- The `POST` handler of `/api/github/onboarding`: 401 without a session
token, 400 when `owner` or `repo` is falsy, otherwise the SSE stream. -/
def postOnboarding (authed : Bool) (owner repo : String)
    (metadata : Except ApiCause RepoMeta)
    (tree : Except ApiCause (List TreeItem))
    (fileContent : String → Option String)
    (ai : Except Unit (List SDKMessage)) : PostResponse :=
  if !authed then .httpError 401 "Unauthorized"
  else if owner = "" ∨ repo = "" then .httpError 400 "Owner and repo are required"
  else .stream (onboardingRouteEvents
    (generateComprehensiveOnboarding metadata tree fileContent ai))

/-! ### Wire frames

`sendSSE` writes `data: ${JSON.stringify(data)}\n\n` for every event; the
encoding below keeps that frame scheme (volatile fields such as the
ISO timestamp of step messages, and JSON string escaping, are abstracted —
no claim depends on them).  The route never writes any other frame: in
particular no `[DONE]` sentinel. -/

def jsonStringLit (s : String) : String :=
  String.mk [quoteChar] ++ s ++ String.mk [quoteChar]

def encodeEvent : StreamEvent → String
  | .progress m =>
    "\x7b\"type\":\"progress\",\"message\":" ++ jsonStringLit m ++ "\x7d"
  | .stepMessage c p =>
    "\x7b\"type\":\"message\",\"data\":\x7b\"type\":\"progress\",\"content\":" ++
      jsonStringLit c ++ ",\"progress\":" ++ toString p ++ "\x7d\x7d"
  | .complete recs =>
    "\x7b\"type\":\"complete\",\"data\":\x7b\"recommendations\":[" ++
      String.intercalate "," (recs.map jsonStringLit) ++ "]\x7d\x7d"
  | .errorEvent m =>
    "\x7b\"type\":\"error\",\"message\":" ++ jsonStringLit m ++ "\x7d"

def sseFrame (e : StreamEvent) : String :=
  "data: " ++ encodeEvent e ++ "\n\n"

def onboardingRouteFrames (result : OnboardingResultM) : List String :=
  (onboardingRouteEvents result).map sseFrame

/-- The sentinel frame used by the generate-website stream protocol of the
same repository (`data: [DONE]`), which the onboarding route never emits. -/
def doneSentinelFrame : String := "data: [DONE]\n\n"

/-- The only error-carrying event constructor. -/
def isErrorEvent : StreamEvent → Bool
  | .errorEvent _ => true
  | _ => false

/-! ## Helper lemmas -/

/-- Shape of every stream: a non-empty progress-like prefix followed by
exactly one terminal event, and nothing after it. -/
theorem routeEvents_shape (r : OnboardingResultM) :
    ∃ pre t, onboardingRouteEvents r = pre ++ [t] ∧ pre ≠ [] ∧
      pre.all isProgressLike = true ∧ isTerminal t = true := by
  by_cases h : r.success = true
  · refine ⟨[.progress "Starting repository analysis...",
        .progress "Gathering repository data..."] ++
        progressSteps.map (fun s => .stepMessage s.1 s.2),
      .complete r.recommendations, ?_, by decide, by decide, rfl⟩
    simp [onboardingRouteEvents, h]
  · refine ⟨[.progress "Starting repository analysis...",
        .progress "Gathering repository data..."],
      .errorEvent (match r.error with
        | some e => if e = "" then "Analysis failed" else e
        | none => "Analysis failed"), ?_, by decide, by decide, rfl⟩
    simp [onboardingRouteEvents, h]

/-- Every encoded event is a JSON object: its first character is a brace. -/
theorem encodeEvent_head_lbrace (e : StreamEvent) :
    ∃ cs, (encodeEvent e).data = lbraceChar :: cs := by
  cases e <;> exact ⟨_, rfl⟩

/-- No event frame is the `[DONE]` sentinel frame. -/
theorem sseFrame_ne_doneSentinel (e : StreamEvent) : sseFrame e ≠ doneSentinelFrame := by
  intro h
  obtain ⟨cs, hcs⟩ := encodeEvent_head_lbrace e
  have hd := congrArg String.data h
  rw [show sseFrame e = ("data: " ++ encodeEvent e) ++ "\n\n" from rfl,
    String.data_append, String.data_append, hcs,
    show ("data: " : String).data = ['d', 'a', 't', 'a', ':', ' '] from rfl] at hd
  have h7 := congrArg (fun l => l.get? 6) hd
  simp at h7
  exact absurd h7 (by decide)

/-- The setup header is always among the enhanced recommendations. -/
theorem setup_header_mem (rd : RepoData) (ca : ClaudeAnalysis) :
    "**🚀 Setup & Development:**" ∈ generateEnhancedRecommendations rd ca := by
  simp [generateEnhancedRecommendations, setupRecBlock]

/-! ## Claims -/

/-- Claim C1.  For every invocation of the onboarding analysis stream with
non-empty owner and name and an authenticated token, the emitted event
sequence is a non-empty progress-like prefix followed by exactly one
terminal event (`complete` or `error`), never both, never more than one,
and no event after the terminal. -/
theorem claim1_stream_progress_then_single_terminal
    (authed : Bool) (owner repo : String)
    (metadata : Except ApiCause RepoMeta) (tree : Except ApiCause (List TreeItem))
    (fc : String → Option String) (ai : Except Unit (List SDKMessage))
    (hA : authed = true) (hO : owner ≠ "") (hR : repo ≠ "") :
    ∃ pre t, postOnboarding authed owner repo metadata tree fc ai =
        .stream (pre ++ [t]) ∧ pre ≠ [] ∧
      pre.all isProgressLike = true ∧ isTerminal t = true := by
  subst hA
  obtain ⟨pre, t, hsh, h1, h2, h3⟩ :=
    routeEvents_shape (generateComprehensiveOnboarding metadata tree fc ai)
  refine ⟨pre, t, ?_, h1, h2, h3⟩
  simp [postOnboarding, hO, hR, hsh]

/-- Claim C1 witness.  A concrete authenticated run with non-empty owner and
name. -/
theorem claim1_witness :
    ∃ pre t, postOnboarding true "octo" "repo" (.ok ⟨some "TypeScript"⟩) (.ok [])
        (fun _ => none) (.error ()) = .stream (pre ++ [t]) ∧ pre ≠ [] ∧
      pre.all isProgressLike = true ∧ isTerminal t = true :=
  claim1_stream_progress_then_single_terminal true "octo" "repo"
    (.ok ⟨some "TypeScript"⟩) (.ok []) (fun _ => none) (.error ())
    rfl (by decide) (by decide)

/-- A concrete successful onboarding run, used to examine the stream end. -/
def c8Result : OnboardingResultM :=
  generateComprehensiveOnboarding (.ok ⟨none⟩) (.ok []) (fun _ => none) (.error ())

set_option maxRecDepth 40000 in
/-- Claim C8 counterexample.  On a concrete successful run the last frame
written to the stream is the terminal `complete` event frame itself, and no
`[DONE]` sentinel frame is ever written: the claimed sentinel after the
terminal event does not exist. -/
theorem claim8_counterexample :
    (onboardingRouteFrames c8Result).getLast? =
        some (sseFrame (.complete c8Result.recommendations)) ∧
      doneSentinelFrame ∉ onboardingRouteFrames c8Result := by
  constructor
  · decide
  · decide

/-- Claim C8 as amended.  The onboarding stream never carries a `[DONE]`-style
sentinel: the frame of the terminal event is the last frame and the stream is
then closed directly. -/
theorem claim8_no_sentinel_stream_ends_at_terminal (r : OnboardingResultM) :
    doneSentinelFrame ∉ onboardingRouteFrames r ∧
      ∃ t, isTerminal t = true ∧
        (onboardingRouteFrames r).getLast? = some (sseFrame t) := by
  constructor
  · intro hmem
    obtain ⟨e, _, he⟩ := List.mem_map.mp hmem
    exact sseFrame_ne_doneSentinel e he
  · obtain ⟨pre, t, hsh, _, _, hterm⟩ := routeEvents_shape r
    refine ⟨t, hterm, ?_⟩
    rw [onboardingRouteFrames, hsh, List.map_append]
    simp

/-- A concrete run in which the gather succeeds and the AI service call
fails (the only way a timeout can manifest: the `query` iteration
rejecting). -/
def c2Result : OnboardingResultM :=
  generateComprehensiveOnboarding (.ok ⟨some "TypeScript"⟩) (.ok [])
    (fun _ => none) (.error ())

set_option maxRecDepth 40000 in
/-- Claim C2 counterexample.  When the AI call fails, the run does complete
with a `complete` event, but the analysis mode of the report stays
`claude_enhanced_analysis` (`ai-enhanced` in the spec), not the fallback mode
`basic_fallback` (`heuristic-fallback` in the spec); and the code contains no
timeout at all, so no delay bound is enforced. -/
theorem claim2_counterexample :
    c2Result.success = true ∧
      c2Result.analysisType = some "claude_enhanced_analysis" ∧
      c2Result.analysisType ≠ some "basic_fallback" ∧
      (onboardingRouteEvents c2Result).getLast? =
        some (.complete c2Result.recommendations) := by
  refine ⟨rfl, rfl, by decide, by decide⟩

/-- Claim C2 as amended.  `performClaudeCodeAnalysis` runs the AI call with no
timeout; when the call fails (for any reason), the run still completes
successfully — the stream ends in a `complete` event and carries no error
event — with the fixed fallback insight placeholder, while the
analysis mode remains `claude_enhanced_analysis`. -/
theorem claim2_ai_failure_still_succeeds (m : RepoMeta) (t : List TreeItem)
    (fc : String → Option String) :
    (generateComprehensiveOnboarding (.ok m) (.ok t) fc (.error ())).success = true ∧
      (generateComprehensiveOnboarding (.ok m) (.ok t) fc (.error ())).analysisType =
        some "claude_enhanced_analysis" ∧
      (generateComprehensiveOnboarding (.ok m) (.ok t) fc (.error ())).metaKeyInsights =
        some ["Analysis limited - Claude SDK unavailable"] ∧
      (∃ pre, onboardingRouteEvents
          (generateComprehensiveOnboarding (.ok m) (.ok t) fc (.error ())) =
          pre ++ [.complete (generateComprehensiveOnboarding (.ok m) (.ok t) fc
            (.error ())).recommendations] ∧
        pre.all isProgressLike = true) ∧
      (onboardingRouteEvents
          (generateComprehensiveOnboarding (.ok m) (.ok t) fc (.error ()))).all
        (fun e => !isErrorEvent e) = true := by
  refine ⟨rfl, rfl, rfl, ⟨[.progress "Starting repository analysis...",
      .progress "Gathering repository data..."] ++
      progressSteps.map (fun s => .stepMessage s.1 s.2), ?_, by decide⟩, ?_⟩
  · simp [onboardingRouteEvents, generateComprehensiveOnboarding, gatherRepositoryData,
      getComprehensiveRepoAnalyticsModel, getRepoDetailsModel, getRepositoryTreeModel]
  · simp [onboardingRouteEvents, generateComprehensiveOnboarding, gatherRepositoryData,
      getComprehensiveRepoAnalyticsModel, getRepoDetailsModel, getRepositoryTreeModel,
      progressSteps, isErrorEvent]

/-- Claim C3 counterexample.  Distinct failure causes of the mandatory
metadata call surface as the *same* generic error, so the caller cannot
distinguish not-found from unauthorized; and a failure of the file-tree call
also fails the gather even though the metadata call succeeded. -/
theorem claim3_counterexample :
    getRepoDetailsModel (Except.error ApiCause.notFound) =
        getRepoDetailsModel (Except.error ApiCause.unauthorized) ∧
      getRepoDetailsModel (Except.error ApiCause.notFound) =
        Except.error "Failed to fetch repository details" ∧
      gatherRepositoryData (Except.ok ⟨some "TypeScript"⟩)
          (Except.error ApiCause.unknown) (fun _ => none) =
        Except.error "Failed to fetch repository tree" :=
  ⟨rfl, rfl, rfl⟩

/-- Claim C3 as amended.  The gather fails exactly when the metadata call or
the file-tree call fails; either failure surfaces as a fixed generic message
(`Failed to fetch comprehensive analytics` resp. `Failed to fetch repository
tree`) that is independent of the underlying cause. -/
theorem claim3_gather_failure_modes :
    (∀ c : ApiCause,
      getComprehensiveRepoAnalyticsModel (.error c) =
          .error "Failed to fetch comprehensive analytics" ∧
        getRepositoryTreeModel (.error c) = .error "Failed to fetch repository tree") ∧
      (∀ (m : Except ApiCause RepoMeta) (t : Except ApiCause (List TreeItem))
        (fc : String → Option String),
        (∃ d, gatherRepositoryData m t fc = .ok d) ↔
          (∃ a, m = .ok a) ∧ (∃ b, t = .ok b)) := by
  constructor
  · intro c
    exact ⟨rfl, rfl⟩
  · intro m t fc
    cases m <;> cases t <;>
      simp [gatherRepositoryData, getComprehensiveRepoAnalyticsModel,
        getRepoDetailsModel, getRepositoryTreeModel]

/-- Claim C4.  Every run that terminates with a result event carries a
non-empty recommendation list; the basic fallback generator is non-empty as
well. -/
theorem claim4_recommendations_nonempty
    (metadata : Except ApiCause RepoMeta) (tree : Except ApiCause (List TreeItem))
    (fc : String → Option String) (ai : Except Unit (List SDKMessage))
    (h : (generateComprehensiveOnboarding metadata tree fc ai).success = true) :
    (generateComprehensiveOnboarding metadata tree fc ai).recommendations ≠ [] ∧
      ∀ rd : RepoData, generateBasicRecommendations rd ≠ [] := by
  constructor
  · cases hg : gatherRepositoryData metadata tree fc with
    | error e =>
      exact absurd h (by simp [generateComprehensiveOnboarding, hg])
    | ok repoData =>
      have hrec : (generateComprehensiveOnboarding metadata tree fc ai).recommendations =
          generateEnhancedRecommendations repoData
            (performClaudeCodeAnalysis ai) := by
        simp [generateComprehensiveOnboarding, hg]
      rw [hrec]
      intro hnil
      have := setup_header_mem repoData (performClaudeCodeAnalysis ai)
      rw [hnil] at this
      exact absurd this (List.not_mem_nil _)
  · intro rd
    simp [generateBasicRecommendations]

/-- Claim C4 witness.  A concrete run ending in a result event. -/
theorem claim4_witness :
    (generateComprehensiveOnboarding (.ok ⟨none⟩) (.ok []) (fun _ => none)
        (.error ())).recommendations ≠ [] ∧
      ∀ rd : RepoData, generateBasicRecommendations rd ≠ [] :=
  claim4_recommendations_nonempty (.ok ⟨none⟩) (.ok []) (fun _ => none)
    (.error ()) rfl

/-- The structure inferencer is the architecture rule applied on top of the
framework detected by the manifest stages. -/
theorem analyzeProjectStructure_split (kfs : List FileAnalysis) :
    ∃ s2 : ProjectStructureM, analyzeProjectStructure kfs =
      { s2 with architecture :=
          if hasDockerFile kfs then "Containerized"
          else if strContains s2.framework "Next.js" ||
              strContains s2.framework "React" then "Single Page Application"
          else if strContains s2.framework "Express" ||
              strContains s2.framework "FastAPI" then "API Server"
          else "Unknown" } :=
  ⟨_, rfl⟩

/-- Claim C5.  The architecture label is derived by first-match rule order:
container file present → `Containerized`; else UI framework detected →
`Single Page Application`; else server framework detected → `API Server`;
else `Unknown`. -/
theorem claim5_architecture_rule_order (kfs : List FileAnalysis) :
    (hasDockerFile kfs = true →
      (analyzeProjectStructure kfs).architecture = "Containerized") ∧
    (hasDockerFile kfs = false →
      uiFrameworkDetected (analyzeProjectStructure kfs) = true →
      (analyzeProjectStructure kfs).architecture = "Single Page Application") ∧
    (hasDockerFile kfs = false →
      uiFrameworkDetected (analyzeProjectStructure kfs) = false →
      serverFrameworkDetected (analyzeProjectStructure kfs) = true →
      (analyzeProjectStructure kfs).architecture = "API Server") ∧
    (hasDockerFile kfs = false →
      uiFrameworkDetected (analyzeProjectStructure kfs) = false →
      serverFrameworkDetected (analyzeProjectStructure kfs) = false →
      (analyzeProjectStructure kfs).architecture = "Unknown") := by
  obtain ⟨s2, hs⟩ := analyzeProjectStructure_split kfs
  rw [hs]
  simp only [uiFrameworkDetected, serverFrameworkDetected]
  refine ⟨fun hd => by simp [hd], fun hd hui => ?_, fun hd hui hsv => ?_,
    fun hd hui hsv => ?_⟩ <;> simp_all

/-- Claim C5 witness.  A repository with a docker descriptor *and* a
server-framework (`express`) dependency resolves to `Containerized`: the
container rule precedes the API-server rule. -/
theorem claim5_witness :
    (analyzeProjectStructure
        [analyzeFile "docker-compose.yml" "services:",
         analyzeFile "package.json"
           "\x7b\"dependencies\":\x7b\"express\":\"4.0.0\"\x7d\x7d"]).architecture =
        "Containerized" ∧
      serverFrameworkDetected (analyzeProjectStructure
        [analyzeFile "docker-compose.yml" "services:",
         analyzeFile "package.json"
           "\x7b\"dependencies\":\x7b\"express\":\"4.0.0\"\x7d\x7d"]) = true :=
  ⟨(claim5_architecture_rule_order _).1 (by decide), by decide⟩

/-- Claim C6.  The file classifier is a total function; a `package.json`
whose content does not parse yields exactly the single
`Contains package configuration` insight, and a file matching none of the
insight categories yields the empty insight list. -/
theorem claim6_classifier_total_fallbacks (filename content : String) :
    (filename = "package.json" → (jsonParse content).isNone = true →
      analyzeFileContent filename content = ["Contains package configuration"]) ∧
    (strContains (strToLower filename) "readme" = false →
      filename ≠ "package.json" → strContains filename "schema.prisma" = false →
      analyzeFileContent filename content = []) := by
  constructor
  · intro hf hp
    subst hf
    have hnone : jsonParse content = none := Option.isNone_iff_eq_none.mp hp
    have h1 : strContains (strToLower "package.json") "readme" = false := by decide
    have h2 : strContains "package.json" "schema.prisma" = false := by decide
    simp [analyzeFileContent, hnone, h1, h2]
  · intro h1 h2 h3
    simp [analyzeFileContent, h1, h2, h3]

/-- Claim C6 witness.  Unparseable manifest content and an uncategorised
file. -/
theorem claim6_witness :
    analyzeFileContent "package.json" "not json" =
        ["Contains package configuration"] ∧
      analyzeFileContent "LICENSE" "Copyright 2024" = [] :=
  ⟨(claim6_classifier_total_fallbacks "package.json" "not json").1 rfl (by decide),
   (claim6_classifier_total_fallbacks "LICENSE" "Copyright 2024").2
     (by decide) (by decide) (by decide)⟩

/-- A one-file tree whose only entry is allow-listed. -/
def c7Tree : List TreeItem := [⟨"package.json", "blob", 10⟩]

/-- Claim C7 counterexample.  When the content fetch of an allow-listed file
fails (`getFileContent` returns null), the file is *not* omitted from the
key-file set: it is included with empty content (and, for `package.json`,
even gains the malformed-manifest insight, since the empty string does not
parse).  The gather still succeeds. -/
theorem claim7_counterexample :
    getKeyFiles c7Tree (fun _ => none) =
        [⟨"package.json", "", "dependencies", ["Contains package configuration"]⟩] ∧
      getKeyFiles c7Tree (fun _ => none) ≠ [] ∧
      gatherRepositoryData (.ok ⟨none⟩) (.ok c7Tree) (fun _ => none) =
        .ok ⟨none, [⟨"package.json", "", "dependencies",
          ["Contains package configuration"]⟩]⟩ :=
  ⟨rfl, by decide, rfl⟩

/-- Claim C7 as amended.  A per-file fetch failure never fails the gather, but
the affected allow-listed file is included with empty stored content rather
than omitted. -/
theorem claim7_failed_fetch_included_not_omitted
    (tree : List TreeItem) (fc : String → Option String) (meta : RepoMeta)
    (item : TreeItem) (hmem : item ∈ tree) (hkey : isKeyFilePath item.path = true)
    (hfail : fc item.path = none) :
    (∃ d, gatherRepositoryData (.ok meta) (.ok tree) fc = .ok d) ∧
      ∃ kf ∈ getKeyFiles tree fc, kf.path = item.path ∧ kf.content = "" := by
  refine ⟨⟨_, rfl⟩, ?_⟩
  refine ⟨⟨item.path, strTake ((fc item.path).getD "") 2000, getFileType item.path,
      analyzeFileContent item.path ((fc item.path).getD "")⟩, ?_, rfl, ?_⟩
  · exact List.mem_map.mpr ⟨item, List.mem_filter.mpr ⟨hmem, hkey⟩, rfl⟩
  · rw [hfail]
    rfl

/-- Claim C7 witness.  The one-file tree with a failing fetch. -/
theorem claim7_witness :
    (∃ d, gatherRepositoryData (.ok ⟨none⟩) (.ok c7Tree) (fun _ => none) = .ok d) ∧
      ∃ kf ∈ getKeyFiles c7Tree (fun _ => none),
        kf.path = "package.json" ∧ kf.content = "" :=
  claim7_failed_fetch_included_not_omitted c7Tree (fun _ => none) ⟨none⟩
    ⟨"package.json", "blob", 10⟩ (by decide) (by decide) rfl

theorem aiRecBlock_length_le (ca : ClaudeAnalysis) : (aiRecBlock ca).length ≤ 8 := by
  unfold aiRecBlock
  split
  · simp only [List.length_cons, List.length_append, List.length_map,
      List.length_take, List.length_nil]
    omega
  · simp

theorem setupRecBlock_length_le (rd : RepoData) : (setupRecBlock rd).length ≤ 5 := by
  unfold setupRecBlock
  rcases h : rd.repoLanguage with _ | lang
  · simp [h]
  · by_cases hl : lang = "JavaScript" ∨ lang = "TypeScript"
    · rcases hf : detectFramework rd.keyFiles with _ | fw <;> simp [hl, hf]
    · simp [hl]

theorem dbRecBlock_length_le (rd : RepoData) (ca : ClaudeAnalysis) :
    (dbRecBlock rd ca).length ≤ 6 := by
  unfold dbRecBlock
  split <;> simp

theorem featRecBlock_length_le (ca : ClaudeAnalysis) : (featRecBlock ca).length ≤ 6 := by
  unfold featRecBlock
  split
  · simp only [List.length_cons, List.length_append, List.length_map,
      List.length_take, List.length_nil]
    omega
  · simp

/-- Claim C9.  The recommendation list never exceeds the fixed bound 30 (the
sum of the per-section caps); when AI enrichment produced insights they are
placed first, capped at six; and the fixed heuristic set (setup and
code-quality entries) is always included, so nothing is lost when AI
enrichment produced no usable content. -/
theorem claim9_recommendations_bounded_ai_first (rd : RepoData) (ca : ClaudeAnalysis) :
    (generateEnhancedRecommendations rd ca).length ≤ 30 ∧
      (ca.keyInsights ≠ [] →
        (generateEnhancedRecommendations rd ca).take
            (1 + (ca.keyInsights.take 6).length) =
          "**🤖 AI-Powered Recommendations:**" ::
            (ca.keyInsights.take 6).map (fun i => "• " ++ i)) ∧
      "**🚀 Setup & Development:**" ∈ generateEnhancedRecommendations rd ca ∧
      "• Clone the repository and review all README files" ∈
        generateEnhancedRecommendations rd ca ∧
      "• Review the codebase structure and naming conventions" ∈
        generateEnhancedRecommendations rd ca ∧
      "• Check for existing tests and testing patterns" ∈
        generateEnhancedRecommendations rd ca ∧
      "• Look for linting and formatting configurations" ∈
        generateEnhancedRecommendations rd ca := by
  refine ⟨?_, ?_, ?_, ?_, ?_, ?_, ?_⟩
  · have h1 := aiRecBlock_length_le ca
    have h2 := setupRecBlock_length_le rd
    have h3 := dbRecBlock_length_le rd ca
    have h4 := featRecBlock_length_le ca
    have h5 : qualityRecBlock.length = 5 := rfl
    simp only [generateEnhancedRecommendations, List.length_append]
    omega
  · intro hne
    unfold generateEnhancedRecommendations aiRecBlock
    rw [if_pos hne]
    have hlen : ((ca.keyInsights.take 6).map (fun i => "• " ++ i)).length =
        (ca.keyInsights.take 6).length := List.length_map _ _
    simp only [List.cons_append, List.append_assoc, Nat.add_comm 1]
    rw [List.take_succ_cons, ← hlen, List.take_left]
  · simp [generateEnhancedRecommendations, setupRecBlock]
  · simp [generateEnhancedRecommendations, setupRecBlock]
  · simp [generateEnhancedRecommendations, qualityRecBlock]
  · simp [generateEnhancedRecommendations, qualityRecBlock]
  · simp [generateEnhancedRecommendations, qualityRecBlock]

/-- Claim C9 witness.  A concrete report with AI insights present. -/
theorem claim9_witness :
    (generateEnhancedRecommendations ⟨none, []⟩
        ⟨"", "", "", [], "", ["use hooks", "check routing"]⟩).length ≤ 30 ∧
      (generateEnhancedRecommendations ⟨none, []⟩
          ⟨"", "", "", [], "", ["use hooks", "check routing"]⟩).take
          (1 + ((["use hooks", "check routing"] : List String).take 6).length) =
        "**🤖 AI-Powered Recommendations:**" ::
          ((["use hooks", "check routing"] : List String).take 6).map
            (fun i => "• " ++ i) :=
  ⟨(claim9_recommendations_bounded_ai_first ⟨none, []⟩
      ⟨"", "", "", [], "", ["use hooks", "check routing"]⟩).1,
   (claim9_recommendations_bounded_ai_first ⟨none, []⟩
      ⟨"", "", "", [], "", ["use hooks", "check routing"]⟩).2.1 (by decide)⟩

/-- Padding making a syntactically valid manifest longer than the 1000-character
store of the analyzer. -/
def c10Pad : String := String.mk (List.replicate 1200 'a')

/-- A valid `package.json` of 1240 characters declaring a `dev` script. -/
def c10Pkg : String :=
  "\x7b\"name\":\"" ++ c10Pad ++ "\",\"scripts\":\x7b\"dev\":\"next dev\"\x7d\x7d"

set_option maxRecDepth 200000 in
/-- Claim C10 counterexample.  A valid manifest longer than the truncation
limit of the classifier does *not* degrade to the generic malformed-manifest
insight: the insight pass parses the full content (truncation applies only
to the stored copy), so the script insights are extracted even though the
stored prefix no longer parses. -/
theorem claim10_counterexample :
    c10Pkg.length > 1000 ∧
      (jsonParse c10Pkg).isSome = true ∧
      (jsonParse (strTake c10Pkg 1000)).isNone = true ∧
      (analyzeFile "package.json" c10Pkg).content = strTake c10Pkg 1000 ∧
      (analyzeFile "package.json" c10Pkg).insights =
        ["Available scripts: dev", "Has development server scripts"] ∧
      (analyzeFile "package.json" c10Pkg).insights ≠
        ["Invalid package.json format"] ∧
      analyzeFileContent "package.json" c10Pkg = ["Available scripts: dev"] ∧
      analyzeFileContent "package.json" c10Pkg ≠
        ["Contains package configuration"] := by
  refine ⟨by decide, by decide, by decide, by decide, by decide, by decide,
    by decide, by decide⟩

set_option maxRecDepth 200000 in
/-- Claim C10 as amended.  The gatherer stores the 2000-character prefix but
computes insights from the full content; the older analyzer stores the
1000-character prefix, and the structure inference that parses this stored
prefix extracts no scripts, dependencies, framework or language from a
valid manifest exceeding the limit. -/
theorem claim10_truncated_store_full_parse :
    (∀ (tree : List TreeItem) (fc : String → Option String) (kf : GatheredKeyFile),
      kf ∈ getKeyFiles tree fc →
        kf.content = strTake ((fc kf.path).getD "") 2000 ∧
          kf.insights = analyzeFileContent kf.path ((fc kf.path).getD "")) ∧
      (analyzeProjectStructure [analyzeFile "package.json" c10Pkg]).framework =
        "Unknown" ∧
      (analyzeProjectStructure [analyzeFile "package.json" c10Pkg]).language =
        "Unknown" ∧
      (analyzeProjectStructure
        [analyzeFile "package.json" c10Pkg]).scripts.isEmpty = true ∧
      (analyzeProjectStructure
        [analyzeFile "package.json" c10Pkg]).dependencies.isEmpty = true := by
  refine ⟨?_, by decide, by decide, by decide, by decide⟩
  intro tree fc kf hmem
  obtain ⟨item, hitem, hkf⟩ := List.mem_map.mp hmem
  subst hkf
  exact ⟨rfl, rfl⟩

/-- Claim C10 witness.  A gathered key file: stored content is the truncated
prefix, insights come from the full fetched content. -/
theorem claim10_witness :
    (⟨"package.json", "\x7b bad", "dependencies",
        ["Contains package configuration"]⟩ : GatheredKeyFile).content =
        strTake (((fun _ => some "\x7b bad") "package.json").getD "") 2000 ∧
      (⟨"package.json", "\x7b bad", "dependencies",
          ["Contains package configuration"]⟩ : GatheredKeyFile).insights =
        analyzeFileContent "package.json"
          (((fun _ => some "\x7b bad") "package.json").getD "") :=
  claim10_truncated_store_full_parse.1 [⟨"package.json", "blob", 6⟩]
    (fun _ => some "\x7b bad")
    ⟨"package.json", "\x7b bad", "dependencies", ["Contains package configuration"]⟩
    (by decide)

end SdlcTools
